import Mathlib

/-!
# Verification of the "Never Forget" critical-task engine (poke-brain)

Shallow embedding of `lib/never-forget.js` (array-based store, the named
source file) and of the Map-based rewrite of the same module found in the
repository.  Times are modelled as integers (milliseconds since the epoch,
as produced by `Date.getTime` / `Date.now`), scores as exact rationals
(the JS engine uses IEEE doubles; all constants and inputs considered here
are exact in both models).  The current wall-clock instant is threaded
explicitly as `now`.
-/

namespace NeverForget

/-- A JS value stored in a snooze-history entry (either an ISO time,
modelled by its epoch milliseconds, or a plain string). -/
inductive JVal where
  | vTime (t : Int)
  | vStr (s : String)
deriving DecidableEq, Repr

/-- A snooze-history record is an object literal; we keep the literal's
key/value pairs so field names are observable. -/
abbrev HistEntry := List (String × JVal)

/-- Micro-step `{id, description, completed, duration}`. -/
structure MicroStep where
  id : String
  description : String
  completed : Bool
  duration : String
deriving DecidableEq, Repr

/-- Note `{id, text, createdAt}`. -/
structure Note where
  id : String
  text : String
  createdAt : Int
deriving DecidableEq, Repr

/-- Visual indicator bundle `{emoji, color, urgencyBar, pulseAnimation, soundAlert}`. -/
structure Indicators where
  emoji : String
  color : String
  urgencyBar : Nat
  pulseAnimation : Bool
  soundAlert : Bool
deriving DecidableEq, Repr

/-- The CriticalTask entity, mirroring the object built in `addCriticalTask`.
`deadline` and `snoozedUntil` are `none` when the JS field is `null`
(the code guards them with truthiness tests); time-valued fields hold
epoch milliseconds. -/
structure Task where
  id : String
  title : String
  description : String
  importance : String
  deadline : Option Int
  createdAt : Int
  updatedAt : Int
  completed : Bool
  completedAt : Option Int
  snoozedUntil : Option Int
  snoozeCount : Nat
  snoozeHistory : List HistEntry
  microSteps : List MicroStep
  visualIndicators : Option Indicators
  escalationStage : String
  priorityScore : ℚ
  notes : List Note
  tags : List String
deriving DecidableEq, Repr

/-- Options bag for `getCriticalTasks`.  `escalationStage`/`limit` are `none`
when absent; the JS truthiness guards are modelled at the use sites. -/
structure Options where
  includeCompleted : Bool := false
  escalationStage : Option String := none
  limit : Option Int := none
deriving DecidableEq, Repr

/-- `PRIORITY_WEIGHTS[importance] || PRIORITY_WEIGHTS.medium`. -/
def priorityWeightOf (importance : String) : ℚ :=
  if importance = "critical" then 100
  else if importance = "high" then 50
  else if importance = "medium" then 25
  else if importance = "low" then 10
  else 25

/-- The deadline block of `calculatePriorityScore` (`if (task.deadline) {...}`):
the amount added to the running score.  `hoursUntilDeadline` is
`(deadline − now)` in hours. -/
def deadlineUrgency (task : Task) (now : Int) : ℚ :=
  match task.deadline with
  | none => 0
  | some d =>
    let hoursUntilDeadline : ℚ := ((d : ℚ) - (now : ℚ)) / (1000 * 60 * 60)
    if hoursUntilDeadline < 0 then
      let hoursOverdue := |hoursUntilDeadline|
      200 + hoursOverdue * 10
    else if hoursUntilDeadline < 24 then 150
    else if hoursUntilDeadline < 72 then 100
    else if hoursUntilDeadline < 168 then 50
    else 0

/-- The recency-boost block of `calculatePriorityScore`. -/
def recencyBoost (task : Task) (now : Int) : ℚ :=
  let hoursSinceCreation : ℚ := ((now : ℚ) - (task.createdAt : ℚ)) / (1000 * 60 * 60)
  if hoursSinceCreation < 1 then 30
  else if hoursSinceCreation < 24 then 10
  else 0

/-- The snooze-suppression block of `calculatePriorityScore`
(`score = Math.max(0, score - 100)` while `snoozedUntil` is in the future),
applied to the accumulated score. -/
def snoozeSuppress (task : Task) (now : Int) (score : ℚ) : ℚ :=
  match task.snoozedUntil with
  | none => score
  | some s => if now < s then max 0 (score - 100) else score

/-- `calculatePriorityScore(task)` with the call instant `now` made explicit.
Follows the source accumulation order: importance base, deadline term,
recency boost, snooze suppression (floored at 0), snooze-count penalty,
final floor at 0. -/
def calculatePriorityScore (task : Task) (now : Int) : ℚ :=
  let score : ℚ :=
    priorityWeightOf task.importance + deadlineUrgency task now + recencyBoost task now
  let score := snoozeSuppress task now score
  let score :=
    if task.snoozeCount > 0 then score + (task.snoozeCount : ℚ) * 20 else score
  max 0 score

/-- `determineEscalationStage(task)` with the call instant `now` explicit. -/
def determineEscalationStage (task : Task) (now : Int) : String :=
  match task.deadline with
  | none => if task.snoozeCount ≥ 5 then "urgent" else "normal"
  | some d =>
    let hoursUntilDeadline : ℚ := ((d : ℚ) - (now : ℚ)) / (1000 * 60 * 60)
    if hoursUntilDeadline < 0 then
      let hoursOverdue := |hoursUntilDeadline|
      if hoursOverdue > 72 then "emergency"
      else if hoursOverdue > 24 then "critical"
      else "urgent"
    else if hoursUntilDeadline < 6 then "critical"
    else if hoursUntilDeadline < 24 then "urgent"
    else if hoursUntilDeadline < 72 then "attention"
    else if task.snoozeCount ≥ 5 then "urgent"
    else if task.snoozeCount ≥ 3 then "attention"
    else "normal"

/-- `generateVisualIndicators(task)`: a lookup keyed on the stage just
computed. -/
def generateVisualIndicators (task : Task) (now : Int) : Indicators :=
  let escalation := determineEscalationStage task now
  if escalation = "emergency" then
    { emoji := "🚨", color := "#E53E3E", urgencyBar := 100
      pulseAnimation := true, soundAlert := true }
  else if escalation = "critical" then
    { emoji := "❗", color := "#DD6B20", urgencyBar := 85
      pulseAnimation := true, soundAlert := false }
  else if escalation = "urgent" then
    { emoji := "⚠️", color := "#D69E2E", urgencyBar := 65
      pulseAnimation := false, soundAlert := false }
  else if escalation = "attention" then
    { emoji := "🔔", color := "#3182CE", urgencyBar := 40
      pulseAnimation := false, soundAlert := false }
  else
    { emoji := "📝", color := "#48BB78", urgencyBar := 20
      pulseAnimation := false, soundAlert := false }

/-- `generateMicroSteps(description)`: fixed 3-item checklist; the three
fresh uuids are passed in explicitly. -/
def generateMicroSteps (ids : String × String × String) : List MicroStep :=
  [ { id := ids.1, description := "📋 Review what needs to be done"
      completed := false, duration := "2 min" },
    { id := ids.2.1, description := "🧩 Break down into smaller parts"
      completed := false, duration := "5 min" },
    { id := ids.2.2, description := "🎯 Start with the easiest part"
      completed := false, duration := "10 min" } ]

/-- The derived-field refresh performed by both implementations
(`priorityScore`, `escalationStage`, `visualIndicators` recomputed as of
`now`; authoritative fields untouched). -/
def refreshTask (t : Task) (now : Int) : Task :=
  { t with
    priorityScore := calculatePriorityScore t now
    escalationStage := determineEscalationStage t now
    visualIndicators := some (generateVisualIndicators t now) }

/-- Descending-score comparison used by `sort((a, b) => b.priorityScore - a.priorityScore)`. -/
def scoreGE (a b : Task) : Prop := b.priorityScore ≤ a.priorityScore

instance : DecidableRel scoreGE := fun a b =>
  inferInstanceAs (Decidable (b.priorityScore ≤ a.priorityScore))

instance : IsTotal Task scoreGE :=
  ⟨fun a b => le_total b.priorityScore a.priorityScore⟩

instance : IsTrans Task scoreGE :=
  ⟨fun _ _ _ h1 h2 => le_trans h2 h1⟩

/-- The sort step: stable sort by descending `priorityScore`. -/
def sortByScoreDesc (ts : List Task) : List Task :=
  List.insertionSort scoreGE ts

/-- `xs.slice(0, e)`: for negative `e` the end index counts from the end of
the array, clamped at 0. -/
def jsSliceTo (xs : List Task) (e : Int) : List Task :=
  if 0 ≤ e then xs.take e.toNat else xs.take ((xs.length : Int) + e).toNat

/-- Input record accepted by `addCriticalTask` (`taskData`).  Optional JS
fields are `Option`; the `|| default` fallbacks are applied in
`addCriticalTask` itself, as in the source. -/
structure TaskData where
  title : String
  description : Option String := none
  importance : Option String := none
  deadline : Option Int := none
  microSteps : Option (List MicroStep) := none
  tags : Option (List String) := none
deriving DecidableEq, Repr

/-- `addCriticalTask(taskData)` on the array-based store.  The generated
uuids (task id and the three default micro-step ids) and the call instant
are explicit arguments.  Returns the created task (or the validation
error) together with the new collection. -/
def addCriticalTask (data : TaskData) (newId : String) (stepIds : String × String × String)
    (state : List Task) (now : Int) : Except String Task × List Task :=
  if data.title.trim = "" then
    (.error "Failed to add critical task: Task title is required", state)
  else
    let task : Task :=
      { id := newId
        title := data.title.trim
        description := (data.description.map String.trim).getD ""
        importance := data.importance.getD "high"
        deadline := data.deadline
        createdAt := now
        updatedAt := now
        completed := false
        completedAt := none
        snoozedUntil := none
        snoozeCount := 0
        snoozeHistory := []
        microSteps := data.microSteps.getD (generateMicroSteps stepIds)
        visualIndicators := none
        escalationStage := "normal"
        priorityScore := 0
        notes := []
        tags := data.tags.getD [] }
    let task := refreshTask task now
    (.ok task, state ++ [task])

/-- `getCriticalTasks(options)` on the array-based store: completed filter,
stage filter (on the stored `escalationStage` field), recompute, sort,
limit — in the source's order.  Pure: the collection is not written. -/
def getCriticalTasks (state : List Task) (options : Options) (now : Int) : List Task :=
  let tasks := state
  let tasks := if options.includeCompleted then tasks else tasks.filter (fun t => !t.completed)
  let tasks :=
    match options.escalationStage with
    | none => tasks
    | some stage => tasks.filter (fun t => t.escalationStage == stage)
  let tasks := tasks.map (fun t => refreshTask t now)
  let tasks := sortByScoreDesc tasks
  match options.limit with
  | none => tasks
  | some l => if l ≠ 0 then jsSliceTo tasks l else tasks

/-- `getTopPriorityTasks(count = 3)`. -/
def getTopPriorityTasks (state : List Task) (count : Int) (now : Int) : List Task :=
  getCriticalTasks state { limit := some count } now

/-- Replace the first task whose `id` matches by the image of the update
function (the JS methods mutate the object returned by `find`). -/
def updateFirstTask : List Task → String → (Task → Task) → List Task
  | [], _, _ => []
  | t :: rest, taskId, f =>
    if t.id == taskId then f t :: rest else t :: updateFirstTask rest taskId f

/-- `snoozeTask(taskId, until, reason = '')`.  `untilMs` is the parse of the
`until` argument: `none` when `new Date(until)` is invalid.  Returns the
result and the new collection (unchanged on every error path, since the
source throws before writing any field). -/
def snoozeTask (state : List Task) (taskId : String) (untilMs : Option Int)
    (reason : String) (now : Int) : Except String Task × List Task :=
  match state.find? (fun t => t.id == taskId) with
  | none => (.error "Task not found", state)
  | some task =>
    if task.completed then (.error "Cannot snooze a completed task", state)
    else
      match untilMs with
      | none => (.error "Invalid snooze date", state)
      | some u =>
        if u ≤ now then (.error "Snooze time must be in the future", state)
        else
          let upd : Task → Task := fun t =>
            refreshTask
              { t with
                snoozedUntil := some u
                snoozeCount := t.snoozeCount + 1
                snoozeHistory := t.snoozeHistory ++
                  [[("snoozedat", JVal.vTime now),
                    ("snoozedUntil", JVal.vTime u),
                    ("reason", JVal.vStr reason.trim)]]
                updatedAt := now } now
          (.ok (upd task), updateFirstTask state taskId upd)

/-- `completeTask(taskId)`. -/
def completeTask (state : List Task) (taskId : String) (now : Int) :
    Except String Task × List Task :=
  match state.find? (fun t => t.id == taskId) with
  | none => (.error "Task not found", state)
  | some task =>
    if task.completed then (.error "Task is already completed", state)
    else
      let upd : Task → Task := fun t =>
        { t with completed := true, completedAt := some now, updatedAt := now }
      (.ok (upd task), updateFirstTask state taskId upd)

/-- Set the `completed` flag of the first micro-step whose id matches. -/
def setStepCompleted : List MicroStep → String → Bool → List MicroStep
  | [], _, _ => []
  | s :: rest, stepId, flag =>
    if s.id == stepId then { s with completed := flag } :: rest
    else s :: setStepCompleted rest stepId flag

/-- `updateMicroStep(taskId, stepId, completed)`. -/
def updateMicroStep (state : List Task) (taskId stepId : String) (flag : Bool)
    (now : Int) : Except String Task × List Task :=
  match state.find? (fun t => t.id == taskId) with
  | none => (.error "Task not found", state)
  | some task =>
    match task.microSteps.find? (fun s => s.id == stepId) with
    | none => (.error "Micro-step not found", state)
    | some _ =>
      let upd : Task → Task := fun t =>
        { t with microSteps := setStepCompleted t.microSteps stepId flag, updatedAt := now }
      (.ok (upd task), updateFirstTask state taskId upd)

/-- `addNote(taskId, noteText)`; the fresh note uuid is explicit. -/
def addNote (state : List Task) (taskId : String) (noteId : String) (noteText : String)
    (now : Int) : Except String Task × List Task :=
  match state.find? (fun t => t.id == taskId) with
  | none => (.error "Task not found", state)
  | some task =>
    let upd : Task → Task := fun t =>
      { t with
        notes := t.notes ++ [{ id := noteId, text := noteText.trim, createdAt := now }]
        updatedAt := now }
    (.ok (upd task), updateFirstTask state taskId upd)

/-- `getUrgentAlerts()`: critical/emergency subset of `getCriticalTasks()`. -/
def getUrgentAlerts (state : List Task) (now : Int) : List Task :=
  (getCriticalTasks state {} now).filter
    (fun t => t.escalationStage == "emergency" || t.escalationStage == "critical")

/-- The record produced by `getStats()`. -/
@[ext]
structure Stats where
  total : Nat
  active : Nat
  completed : Nat
  overdue : Nat
  snoozed : Nat
  emergency : Nat
  critical : Nat
  urgent : Nat
deriving DecidableEq, Repr

/-- `getStats()` on the array-based store.  Overdue/snoozed use the current
instant; the three stage counts read the stored `escalationStage` field. -/
def getStats (state : List Task) (now : Int) : Stats :=
  let all := state
  let active := all.filter (fun t => !t.completed)
  { total := all.length
    active := active.length
    completed := (all.filter (fun t => t.completed)).length
    overdue := (active.filter (fun t =>
      match t.deadline with
      | none => false
      | some d => d < now)).length
    snoozed := (active.filter (fun t =>
      match t.snoozedUntil with
      | none => false
      | some s => now < s)).length
    emergency := (active.filter (fun t => t.escalationStage == "emergency")).length
    critical := (active.filter (fun t => t.escalationStage == "critical")).length
    urgent := (active.filter (fun t => t.escalationStage == "urgent")).length }

/-- `clearCompleted()`: removes completed tasks, returns the count removed
and the new collection. -/
def clearCompleted (state : List Task) : Nat × List Task :=
  let kept := state.filter (fun t => !t.completed)
  (state.length - kept.length, kept)

/-! ## Named pipeline stages and comparator definitions

The stage combinators below name the five steps of the read pipeline; the
`Spec`-prefixed definitions transcribe the specification's wording (for
refinement comparison), not the source. -/

/-- Pipeline stage: drop completed tasks unless `includeCompleted`. -/
def dropCompletedUnless (includeCompleted : Bool) (ts : List Task) : List Task :=
  if includeCompleted then ts else ts.filter (fun t => !t.completed)

/-- Pipeline stage: keep only tasks whose *stored* `escalationStage` field
matches the requested stage (no-op when no stage is requested). -/
def keepMatchingStage (stage : Option String) (ts : List Task) : List Task :=
  match stage with
  | none => ts
  | some s => ts.filter (fun t => t.escalationStage == s)

/-- Pipeline stage: recompute every task's derived fields as of `now`. -/
def refreshAll (ts : List Task) (now : Int) : List Task :=
  ts.map (fun t => refreshTask t now)

/-- Pipeline stage: truncate to the optional limit (ignored when absent or
`0`, i.e. falsy in JS). -/
def truncateToLimit (limit : Option Int) (ts : List Task) : List Task :=
  match limit with
  | none => ts
  | some l => if l ≠ 0 then jsSliceTo ts l else ts

/-- `getCriticalTasks` as the specification words it: drop completed unless
`includeCompleted`, **recompute derived fields as of now**, drop tasks whose
*recomputed* stage differs from the requested stage, sort by priorityScore
descending, truncate to the optional limit. -/
def specGetCriticalTasks (state : List Task) (options : Options) (now : Int) : List Task :=
  truncateToLimit options.limit
    (sortByScoreDesc
      (keepMatchingStage options.escalationStage
        (refreshAll (dropCompletedUnless options.includeCompleted state) now)))

/-- The pipeline the array-based source actually implements: the stage filter
runs on the *stored* `escalationStage`, **before** the recompute step. -/
def staleStageGetCriticalTasks (state : List Task) (options : Options) (now : Int) : List Task :=
  truncateToLimit options.limit
    (sortByScoreDesc
      (refreshAll
        (keepMatchingStage options.escalationStage
          (dropCompletedUnless options.includeCompleted state)) now))

/-- `getStats` as the specification words it: identical to the source except
that the three per-stage counts among active tasks use the escalation stage
*recomputed* at call time. -/
def specGetStats (state : List Task) (now : Int) : Stats :=
  let all := state
  let active := all.filter (fun t => !t.completed)
  { total := all.length
    active := active.length
    completed := (all.filter (fun t => t.completed)).length
    overdue := (active.filter (fun t =>
      match t.deadline with
      | none => false
      | some d => d < now)).length
    snoozed := (active.filter (fun t =>
      match t.snoozedUntil with
      | none => false
      | some s => now < s)).length
    emergency := (active.filter (fun t => determineEscalationStage t now == "emergency")).length
    critical := (active.filter (fun t => determineEscalationStage t now == "critical")).length
    urgent := (active.filter (fun t => determineEscalationStage t now == "urgent")).length }

/-- `getStats` restated with single-pass counts (`countP`) over the raw
collection, per-stage counts taken from the *stored* `escalationStage`. -/
def storedStageStats (state : List Task) (now : Int) : Stats :=
  { total := state.length
    active := state.countP (fun t => !t.completed)
    completed := state.countP (fun t => t.completed)
    overdue := state.countP (fun t => !t.completed &&
      (match t.deadline with
       | none => false
       | some d => decide (d < now)))
    snoozed := state.countP (fun t => !t.completed &&
      (match t.snoozedUntil with
       | none => false
       | some s => decide (now < s)))
    emergency := state.countP (fun t => !t.completed && t.escalationStage == "emergency")
    critical := state.countP (fun t => !t.completed && t.escalationStage == "critical")
    urgent := state.countP (fun t => !t.completed && t.escalationStage == "urgent") }

/-! ## The Map-based rewrite of the module

The repository also carries a performance-optimized rewrite of
`lib/never-forget.js` storing tasks in a `Map`.  Its calculator functions
are identical to the array-based ones above; its `getCriticalTasks` loop
differs: it refreshes the stored task *before* applying the stage filter,
mutating the store as it reads.  The values of the `Map` in insertion order
are modelled as a list. -/

namespace MapVariant

/-- One loop iteration of the Map-based `getCriticalTasks`: the task as left
in the store, and whether it is pushed onto `results`. -/
def visitTask (options : Options) (now : Int) (t : Task) : Task × Bool :=
  if !options.includeCompleted && t.completed then (t, false)
  else
    let t1 := refreshTask t now
    match options.escalationStage with
    | some s => if t1.escalationStage == s then (t1, true) else (t1, false)
    | none => (t1, true)

/-- The limit step of the Map-based variant: `slice(0, limit)` applied only
when `options.limit` is truthy *and* positive. -/
def truncatePositive (limit : Option Int) (ts : List Task) : List Task :=
  match limit with
  | none => ts
  | some l => if 0 < l then ts.take l.toNat else ts

/-- The Map-based `getCriticalTasks(options)`: single pass with early
filtering, in-place metric refresh, sort, positive-limit slice.  Returns
the result list and the store as left after the pass. -/
def getCriticalTasks (state : List Task) (options : Options) (now : Int) :
    List Task × List Task :=
  let visited := state.map (visitTask options now)
  let results := (visited.filter (fun p => p.2)).map (fun p => p.1)
  let sorted := sortByScoreDesc results
  (truncatePositive options.limit sorted, visited.map (fun p => p.1))

end MapVariant

/-! ## Public operations as a step relation (array-based store)

`Op` enumerates the public operations with their arguments (generated uuids
made explicit); `runState` is the collection each one leaves behind.  The
three read operations do not write the array-based store. -/

/-- A public operation of the store with its arguments. -/
inductive Op where
  | add (data : TaskData) (newId : String) (stepIds : String × String × String)
  | getTasks (options : Options)
  | topPriority (count : Int)
  | snooze (taskId : String) (untilMs : Option Int) (reason : String)
  | complete (taskId : String)
  | updStep (taskId stepId : String) (flag : Bool)
  | note (taskId noteId text : String)
  | alerts
  | stats
  | clearDone

/-- The collection state after running one public operation at instant `now`. -/
def runState : Op → List Task → Int → List Task
  | .add data newId stepIds, state, now => (addCriticalTask data newId stepIds state now).2
  | .getTasks _, state, _ => state
  | .topPriority _, state, _ => state
  | .snooze taskId u reason, state, now => (snoozeTask state taskId u reason now).2
  | .complete taskId, state, now => (completeTask state taskId now).2
  | .updStep taskId stepId flag, state, now => (updateMicroStep state taskId stepId flag now).2
  | .note taskId noteId text, state, now => (addNote state taskId noteId text now).2
  | .alerts, state, _ => state
  | .stats, state, _ => state
  | .clearDone, state, _ => (clearCompleted state).2

/-- A task value with every field defaulted; concrete states below override
the fields they care about. -/
def baseTask : Task :=
  { id := "x", title := "t", description := "", importance := "high"
    deadline := none, createdAt := 0, updatedAt := 0, completed := false
    completedAt := none, snoozedUntil := none, snoozeCount := 0
    snoozeHistory := [], microSteps := [], visualIndicators := none
    escalationStage := "normal", priorityScore := 0, notes := [], tags := [] }

example :
    determineEscalationStage
      { baseTask with importance := "critical", deadline := some 0 }
      (100 * 3600000) = "emergency" := by
  norm_num [determineEscalationStage]

example :
    calculatePriorityScore
      { baseTask with importance := "critical", deadline := some 0 }
      (100 * 3600000) = 1300 := by
  norm_num [calculatePriorityScore, priorityWeightOf, deadlineUrgency, recencyBoost,
    snoozeSuppress, baseTask]

/-- Observation instant used by the concrete states: hour 1000. -/
def cNow : Int := 1000 * 3600000

/-- A completed task. -/
def cDoneTask : Task := { baseTask with id := "a", completed := true }

/-- An active task whose stored `escalationStage` is stale: the field says
`normal`, but at `cNow` its deadline (hour 999) is one hour overdue, so the
recomputed stage is `urgent`. -/
def cStaleTask : Task := { baseTask with id := "a", deadline := some (999 * 3600000) }

/-- Snoozed beyond `cNow`, importance high, no deadline, snoozed 5 times. -/
def cSnoozedTask : Task :=
  { baseTask with snoozedUntil := some (cNow + 3600000), snoozeCount := 5 }

/-- Snoozed beyond the observation instant `3600000`, never snoozed before. -/
def cFreshSnoozedTask : Task := { baseTask with snoozedUntil := some 7200000 }

end NeverForget

namespace NeverForget

/-! ## Basic lemmas -/

theorem refreshTask_completed (t : Task) (now : Int) :
    (refreshTask t now).completed = t.completed := rfl

theorem refreshTask_id (t : Task) (now : Int) :
    (refreshTask t now).id = t.id := rfl

theorem truncateToLimit_subset (limit : Option Int) (ts : List Task) :
    truncateToLimit limit ts ⊆ ts := by
  cases limit with
  | none => exact fun _ h => h
  | some l =>
    simp only [truncateToLimit]
    by_cases h0 : l ≠ 0
    · rw [if_pos h0]
      unfold jsSliceTo
      by_cases hp : (0 : Int) ≤ l
      · rw [if_pos hp]
        exact List.take_subset _ _
      · rw [if_neg hp]
        exact List.take_subset _ _
    · rw [if_neg h0]
      exact fun _ h => h

theorem priorityWeightOf_high : priorityWeightOf "high" = 50 := by
  unfold priorityWeightOf
  rw [if_neg (by decide : ¬("high" = "critical")), if_pos rfl]

theorem mem_sortByScoreDesc {ts : List Task} {t : Task} :
    t ∈ sortByScoreDesc ts ↔ t ∈ ts :=
  (List.perm_insertionSort scoreGE ts).mem_iff

theorem sorted_sortByScoreDesc (ts : List Task) :
    List.Sorted scoreGE (sortByScoreDesc ts) :=
  List.sorted_insertionSort scoreGE ts

/-! ## C3 — completing an already-completed task -/

/-- C3: for every task id whose task currently has `completed = true`,
`completeTask` fails with the already-completed error, and the collection
(every field of that task included) is exactly as before. -/
theorem completeTask_already_completed_error (state : List Task) (taskId : String)
    (now : Int) (t : Task) (hfind : state.find? (fun x => x.id == taskId) = some t)
    (hc : t.completed = true) :
    completeTask state taskId now = (.error "Task is already completed", state) := by
  unfold completeTask
  rw [hfind]
  simp [hc]

theorem completeTask_already_completed_error_witness :
    completeTask [cDoneTask] "a" cNow = (.error "Task is already completed", [cDoneTask]) :=
  completeTask_already_completed_error [cDoneTask] "a" cNow cDoneTask (by decide) (by decide)

/-! ## C4 — snoozing with an invalid or non-future `until` -/

/-- C4: on an existing, non-completed task, a snooze whose `until` does not
parse (`none`) or is not strictly after `now` fails with the corresponding
validation error and leaves the collection — `snoozeCount` included —
exactly as before: all checks run before any field is written. -/
theorem snoozeTask_rejects_invalid_until (state : List Task) (taskId : String)
    (untilMs : Option Int) (reason : String) (now : Int) (t : Task)
    (hfind : state.find? (fun x => x.id == taskId) = some t)
    (hc : t.completed = false)
    (hbad : untilMs = none ∨ ∃ u, untilMs = some u ∧ u ≤ now) :
    (snoozeTask state taskId untilMs reason now).2 = state ∧
    ((snoozeTask state taskId untilMs reason now).1 = .error "Invalid snooze date" ∨
      (snoozeTask state taskId untilMs reason now).1 =
        .error "Snooze time must be in the future") := by
  unfold snoozeTask
  rw [hfind]
  rcases hbad with h | ⟨u, hu, hle⟩
  · subst h
    simp [hc]
  · subst hu
    simp [hc, hle]

theorem snoozeTask_rejects_invalid_until_witness :
    (snoozeTask [baseTask] "x" (some 1000) "" cNow).2 = [baseTask] ∧
    ((snoozeTask [baseTask] "x" (some 1000) "" cNow).1 = .error "Invalid snooze date" ∨
      (snoozeTask [baseTask] "x" (some 1000) "" cNow).1 =
        .error "Snooze time must be in the future") :=
  snoozeTask_rejects_invalid_until [baseTask] "x" (some 1000) "" cNow baseTask
    (by decide) (by decide) (Or.inr ⟨1000, rfl, by decide⟩)

/-! ## C5 — monotonicity of the score in the snooze count -/

theorem snoozePenalty_mono (a : ℚ) (c1 c2 : ℕ) (h : c1 ≤ c2) :
    max 0 (if 0 < c1 then a + (c1 : ℚ) * 20 else a) ≤
      max 0 (if 0 < c2 then a + (c2 : ℚ) * 20 else a) := by
  rcases Nat.eq_zero_or_pos c1 with h1 | h1
  · subst h1
    rcases Nat.eq_zero_or_pos c2 with h2 | h2
    · subst h2
      exact le_rfl
    · have : (0 : ℚ) ≤ (c2 : ℚ) * 20 := by positivity
      simp only [lt_irrefl, if_false, if_pos h2]
      exact max_le_max le_rfl (by linarith)
  · have h2 : 0 < c2 := lt_of_lt_of_le h1 h
    have : (c1 : ℚ) ≤ (c2 : ℚ) := by exact_mod_cast h
    simp only [if_pos h1, if_pos h2]
    exact max_le_max le_rfl (by linarith)

/-- C5: holding every other field and the observation instant fixed,
`calculatePriorityScore` is monotonically non-decreasing in `snoozeCount`. -/
theorem priorityScore_mono_snoozeCount (t : Task) (now : Int) (c1 c2 : ℕ)
    (h : c1 ≤ c2) :
    calculatePriorityScore { t with snoozeCount := c1 } now ≤
      calculatePriorityScore { t with snoozeCount := c2 } now := by
  have e1 : calculatePriorityScore { t with snoozeCount := c1 } now =
      max 0 (if 0 < c1 then
        snoozeSuppress t now
          (priorityWeightOf t.importance + deadlineUrgency t now + recencyBoost t now)
          + (c1 : ℚ) * 20
      else
        snoozeSuppress t now
          (priorityWeightOf t.importance + deadlineUrgency t now + recencyBoost t now)) := rfl
  have e2 : calculatePriorityScore { t with snoozeCount := c2 } now =
      max 0 (if 0 < c2 then
        snoozeSuppress t now
          (priorityWeightOf t.importance + deadlineUrgency t now + recencyBoost t now)
          + (c2 : ℚ) * 20
      else
        snoozeSuppress t now
          (priorityWeightOf t.importance + deadlineUrgency t now + recencyBoost t now)) := rfl
  rw [e1, e2]
  exact snoozePenalty_mono _ c1 c2 h

theorem priorityScore_mono_snoozeCount_witness :
    calculatePriorityScore { baseTask with snoozeCount := 1 } cNow ≤
      calculatePriorityScore { baseTask with snoozeCount := 4 } cNow :=
  priorityScore_mono_snoozeCount baseTask cNow 1 4 (by decide)

/-! ## C9 — the snoozed-high-importance scenario -/

/-- C9 counterexample: a task inside the claim's scenario class (importance
`high`, no deadline, snooze active one hour past `cNow`) whose
`snoozeCount` is 5: its score is 100, not 0, and its stage is `urgent`,
not `normal` — so the scenario result does not hold with `snoozeCount`
unconstrained. -/
theorem snoozed_high_nonzero_cex :
    cSnoozedTask.importance = "high" ∧ cSnoozedTask.deadline = none ∧
    cSnoozedTask.snoozedUntil = some (cNow + 3600000) ∧ cNow < cNow + 3600000 ∧
    calculatePriorityScore cSnoozedTask cNow = 100 ∧
    determineEscalationStage cSnoozedTask cNow = "urgent" := by
  refine ⟨rfl, rfl, rfl, by norm_num [cNow], ?_, ?_⟩
  · norm_num [calculatePriorityScore, priorityWeightOf_high, deadlineUrgency, recencyBoost,
      snoozeSuppress, cSnoozedTask, baseTask, cNow]
  · norm_num [determineEscalationStage, cSnoozedTask, baseTask, cNow]

/-- C9 amended: for every task with importance `high`, no deadline,
`snoozedUntil` strictly in the future and `snoozeCount = 0` (with
`createdAt` still unconstrained), the score is 0 (base 50, minus-100
suppression applied to the accumulated score, floored at 0) and the stage
is `normal`. -/
theorem snoozed_high_score_zero (t : Task) (now su : Int)
    (himp : t.importance = "high") (hdl : t.deadline = none)
    (hsu : t.snoozedUntil = some su) (hfut : now < su) (hc : t.snoozeCount = 0) :
    calculatePriorityScore t now = 0 ∧ determineEscalationStage t now = "normal" := by
  have hw : priorityWeightOf t.importance = 50 := by rw [himp, priorityWeightOf_high]
  have hd : deadlineUrgency t now = 0 := by
    unfold deadlineUrgency
    rw [hdl]
  constructor
  · unfold calculatePriorityScore snoozeSuppress
    rw [hw, hd, hsu, hc]
    simp only [if_pos hfut, Nat.lt_irrefl, if_false, Nat.cast_zero]
    simp only [recencyBoost]
    split_ifs <;> norm_num
  · unfold determineEscalationStage
    rw [hdl, hc]
    norm_num

theorem snoozed_high_score_zero_witness :
    calculatePriorityScore cFreshSnoozedTask 3600000 = 0 ∧
      determineEscalationStage cFreshSnoozedTask 3600000 = "normal" :=
  snoozed_high_score_zero cFreshSnoozedTask 3600000 7200000 rfl rfl rfl (by decide) rfl

/-! ## C10 — a limit of 0 does not truncate -/

/-- C10: in both implementations of `getCriticalTasks`, a `limit` of 0 is
falsy/non-positive and is ignored: the call returns the entire filtered,
sorted sequence, identical to a call without a limit. -/
theorem getCriticalTasks_limit_zero_ignored (state : List Task) (now : Int)
    (ic : Bool) (es : Option String) :
    getCriticalTasks state { includeCompleted := ic, escalationStage := es, limit := some 0 } now =
      getCriticalTasks state { includeCompleted := ic, escalationStage := es, limit := none } now ∧
    (MapVariant.getCriticalTasks state
        { includeCompleted := ic, escalationStage := es, limit := some 0 } now).1 =
      (MapVariant.getCriticalTasks state
        { includeCompleted := ic, escalationStage := es, limit := none } now).1 := by
  constructor
  · unfold getCriticalTasks
    simp
  · unfold MapVariant.getCriticalTasks
    have h : MapVariant.visitTask
          { includeCompleted := ic, escalationStage := es, limit := some 0 } now =
        MapVariant.visitTask
          { includeCompleted := ic, escalationStage := es, limit := none } now := rfl
    rw [h]
    simp [MapVariant.truncatePositive]

/-! ## C1 — what the stage filter of `getCriticalTasks` compares against -/

theorem refreshTask_escalationStage (t : Task) (now : Int) :
    (refreshTask t now).escalationStage = determineEscalationStage t now := rfl

theorem truncateToLimit_sublist (limit : Option Int) (ts : List Task) :
    List.Sublist (truncateToLimit limit ts) ts := by
  cases limit with
  | none => exact List.Sublist.refl ts
  | some l =>
    simp only [truncateToLimit]
    by_cases h0 : l ≠ 0
    · rw [if_pos h0]
      unfold jsSliceTo
      by_cases hp : (0 : Int) ≤ l
      · rw [if_pos hp]
        exact List.take_sublist _ _
      · rw [if_neg hp]
        exact List.take_sublist _ _
    · rw [if_neg h0]

/-- C1 counterexample: a store holding one active task whose stored
`escalationStage` field reads `normal` while its recomputed stage at `cNow`
is `urgent`.  Requesting stage `urgent` returns the empty sequence — the
task is dropped on the basis of its stale stored stage — whereas the
specification's pipeline (recompute before the stage filter) returns it. -/
theorem getCriticalTasks_stale_stage_cex :
    getCriticalTasks [cStaleTask] { escalationStage := some "urgent" } cNow = [] ∧
    specGetCriticalTasks [cStaleTask] { escalationStage := some "urgent" } cNow =
      [refreshTask cStaleTask cNow] ∧
    determineEscalationStage cStaleTask cNow = "urgent" ∧
    cStaleTask.escalationStage = "normal" ∧ cStaleTask.completed = false := by
  have hstage : determineEscalationStage cStaleTask cNow = "urgent" := by
    norm_num [determineEscalationStage, cStaleTask, baseTask, cNow]
  refine ⟨by decide, ?_, hstage, rfl, rfl⟩
  simp [specGetCriticalTasks, dropCompletedUnless, refreshAll, keepMatchingStage,
    truncateToLimit, sortByScoreDesc, refreshTask_escalationStage, hstage,
    show cStaleTask.completed = false from rfl]

/-- C1 amended: with `escalationStage` requested, the array-based
`getCriticalTasks` pipeline is (1) drop completed unless `includeCompleted`,
(2) drop tasks whose *stored* `escalationStage` field differs from the
requested stage, (3) recompute derived fields as of now, (4) sort by
`priorityScore` descending, (5) truncate to the optional limit — so the
stage filter does act on the stored, possibly stale stage, and every task
that survives it is returned with freshly recomputed fields. -/
theorem getCriticalTasks_stage_filter_stored (state : List Task) (options : Options)
    (now : Int) :
    getCriticalTasks state options now = staleStageGetCriticalTasks state options now ∧
    ∀ t ∈ getCriticalTasks state options now, ∃ t0, t = refreshTask t0 now := by
  have hpipe : getCriticalTasks state options now =
      truncateToLimit options.limit
        (sortByScoreDesc
          (refreshAll
            (keepMatchingStage options.escalationStage
              (dropCompletedUnless options.includeCompleted state)) now)) := rfl
  refine ⟨hpipe, ?_⟩
  intro t ht
  rw [hpipe] at ht
  have h1 := truncateToLimit_subset _ _ ht
  rw [mem_sortByScoreDesc] at h1
  rcases List.mem_map.mp h1 with ⟨t0, _, h⟩
  exact ⟨t0, h.symm⟩

/-! ## C2 — what `getStats` counts -/

/-- C2 counterexample: on the same stale store, `getStats` reports no urgent
task (the stored stage reads `normal`), while the specification's pass —
which recomputes the stage — counts one. -/
theorem getStats_stale_stage_cex :
    (getStats [cStaleTask] cNow).urgent = 0 ∧
    (specGetStats [cStaleTask] cNow).urgent = 1 ∧
    cStaleTask.completed = false ∧
    determineEscalationStage cStaleTask cNow = "urgent" := by
  have hstage : determineEscalationStage cStaleTask cNow = "urgent" := by
    norm_num [determineEscalationStage, cStaleTask, baseTask, cNow]
  refine ⟨by decide, ?_, rfl, hstage⟩
  simp [specGetStats, hstage, show cStaleTask.completed = false from rfl]

/-- C2 amended: `getStats` returns the claimed total/active/completed/
overdue/snoozed counts, and per-stage counts among active tasks taken from
the *stored* `escalationStage` field — the stage is not recomputed during
the pass. -/
theorem getStats_counts_stored_stage (state : List Task) (now : Int) :
    getStats state now = storedStageStats state now := by
  apply Stats.ext <;>
    simp [getStats, storedStageStats, List.countP_eq_length_filter]
  all_goals exact congrArg List.length (List.filter_congr (fun a _ => Bool.and_comm _ _))

/-! ## C7 — completed tasks are excluded; the result is sorted -/

theorem truncatePositive_subset (limit : Option Int) (ts : List Task) :
    MapVariant.truncatePositive limit ts ⊆ ts := by
  cases limit with
  | none => exact fun _ h => h
  | some l =>
    simp only [MapVariant.truncatePositive]
    by_cases hp : (0 : Int) < l
    · rw [if_pos hp]
      exact List.take_subset _ _
    · rw [if_neg hp]
      exact fun _ h => h

theorem truncatePositive_sublist (limit : Option Int) (ts : List Task) :
    List.Sublist (MapVariant.truncatePositive limit ts) ts := by
  cases limit with
  | none => exact List.Sublist.refl ts
  | some l =>
    simp only [MapVariant.truncatePositive]
    by_cases hp : (0 : Int) < l
    · rw [if_pos hp]
      exact List.take_sublist _ _
    · rw [if_neg hp]

/-- In both branches of the Map-based loop body that can push a task onto
`results`, the pushed task is a refresh of the stored one, so its
`completed` flag is the stored one. -/
theorem visitTask_fst_completed (options : Options) (now : Int) (t : Task)
    (h : ¬(!options.includeCompleted && t.completed) = true) :
    ((MapVariant.visitTask options now t).1).completed = t.completed := by
  unfold MapVariant.visitTask
  rw [if_neg h]
  cases hes : options.escalationStage with
  | none => exact refreshTask_completed t now
  | some s =>
    by_cases hm : ((refreshTask t now).escalationStage == s) = true
    · simp only [if_pos hm]
      exact refreshTask_completed t now
    · simp only [if_neg hm]
      exact refreshTask_completed t now

/-- C7: in both implementations, `getCriticalTasks` never returns a
completed task unless `includeCompleted` is true (boolean-encoded: either
`includeCompleted` is set or every returned task is uncompleted), and the
returned sequence is always sorted by `priorityScore` in non-increasing
order. -/
theorem getCriticalTasks_excludes_completed_and_sorted (state : List Task)
    (options : Options) (now : Int) :
    ((options.includeCompleted ||
        (getCriticalTasks state options now).all (fun t => !t.completed)) = true ∧
      List.Sorted scoreGE (getCriticalTasks state options now)) ∧
    ((options.includeCompleted ||
        (MapVariant.getCriticalTasks state options now).1.all (fun t => !t.completed)) = true ∧
      List.Sorted scoreGE (MapVariant.getCriticalTasks state options now).1) := by
  refine ⟨?_, ?_⟩
  case refine_1 =>
    have hpipe : getCriticalTasks state options now =
        truncateToLimit options.limit
          (sortByScoreDesc
            (refreshAll
              (keepMatchingStage options.escalationStage
                (dropCompletedUnless options.includeCompleted state)) now)) := rfl
    constructor
    · cases hic : options.includeCompleted with
      | true => simp
      | false =>
        simp only [Bool.false_or, List.all_eq_true]
        intro t ht
        rw [hpipe] at ht
        have h1 := truncateToLimit_subset _ _ ht
        rw [mem_sortByScoreDesc] at h1
        rcases List.mem_map.mp h1 with ⟨t0, ht0, rfl⟩
        have h2 : t0 ∈ dropCompletedUnless options.includeCompleted state := by
          cases hes : options.escalationStage with
          | none => simpa [keepMatchingStage, hes] using ht0
          | some s =>
            rw [hes] at ht0
            exact (List.mem_filter.mp ht0).1
        rw [dropCompletedUnless, hic, if_neg (by simp)] at h2
        have h3 := (List.mem_filter.mp h2).2
        simpa [refreshTask_completed] using h3
    · rw [hpipe]
      exact List.Pairwise.sublist (truncateToLimit_sublist _ _)
        (sorted_sortByScoreDesc _)
  case refine_2 =>
    constructor
    · cases hic : options.includeCompleted with
      | true => simp
      | false =>
        simp only [Bool.false_or, List.all_eq_true]
        intro t ht
        have h1 := truncatePositive_subset _ _ ht
        rw [mem_sortByScoreDesc] at h1
        rcases List.mem_map.mp h1 with ⟨p, hp, rfl⟩
        have hpf := List.mem_filter.mp hp
        rcases List.mem_map.mp hpf.1 with ⟨t0, _, rfl⟩
        by_cases hc0 : (!options.includeCompleted && t0.completed) = true
        · exfalso
          have : (MapVariant.visitTask options now t0).2 = false := by
            unfold MapVariant.visitTask
            rw [if_pos hc0]
          rw [this] at hpf
          exact Bool.false_ne_true hpf.2
        · rw [visitTask_fst_completed options now t0 hc0]
          have hc1 : t0.completed = false := by
            rcases Bool.eq_false_or_eq_true t0.completed with h | h
            · exact absurd (by simp [hic, h] : (!options.includeCompleted && t0.completed) = true) hc0
            · exact h
          simp [hc1]
    · exact List.Pairwise.sublist (truncatePositive_sublist _ _)
        (sorted_sortByScoreDesc _)

/-! ## C6 — `completed` is monotonic across every public operation -/

theorem find?_unchanged_completed {state : List Task} {p : Task → Bool} {t t' : Task}
    (hfind : state.find? p = some t) (hc : t.completed = true)
    (hfind2 : state.find? p = some t') : t'.completed = true := by
  rw [hfind] at hfind2
  cases hfind2
  exact hc

theorem updateFirstTask_find?_completed (s : List Task) (tid : String) (f : Task → Task)
    (hid : ∀ x, (f x).id = x.id)
    (hcm : ∀ x, x.completed = true → (f x).completed = true)
    (taskId : String) (t t' : Task)
    (hfind : s.find? (fun x => x.id == taskId) = some t) (hc : t.completed = true)
    (hfind2 : (updateFirstTask s tid f).find? (fun x => x.id == taskId) = some t') :
    t'.completed = true := by
  induction s with
  | nil => simp at hfind
  | cons x rest ih =>
    by_cases hxt : (x.id == tid) = true
    · simp only [updateFirstTask, if_pos hxt] at hfind2
      by_cases hxi : (x.id == taskId) = true
      · rw [List.find?_cons_of_pos (p := fun y : Task => y.id == taskId) _ hxi] at hfind
        have hfx : ((f x).id == taskId) = true := by rw [hid x]; exact hxi
        rw [List.find?_cons_of_pos (p := fun y : Task => y.id == taskId) _ hfx] at hfind2
        cases hfind
        cases hfind2
        exact hcm _ hc
      · rw [List.find?_cons_of_neg (p := fun y : Task => y.id == taskId) _ hxi] at hfind
        have hfx : ¬((f x).id == taskId) = true := by rw [hid x]; exact hxi
        rw [List.find?_cons_of_neg (p := fun y : Task => y.id == taskId) _ hfx] at hfind2
        exact find?_unchanged_completed hfind hc hfind2
    · simp only [updateFirstTask, if_neg hxt] at hfind2
      by_cases hxi : (x.id == taskId) = true
      · rw [List.find?_cons_of_pos (p := fun y : Task => y.id == taskId) _ hxi] at hfind
        rw [List.find?_cons_of_pos (p := fun y : Task => y.id == taskId) _ hxi] at hfind2
        cases hfind
        cases hfind2
        exact hc
      · rw [List.find?_cons_of_neg (p := fun y : Task => y.id == taskId) _ hxi] at hfind
        rw [List.find?_cons_of_neg (p := fun y : Task => y.id == taskId) _ hxi] at hfind2
        exact ih hfind hfind2

/-- C6: across every public operation of the store, a task (looked up by
id) that has `completed = true` before the operation and is still present
afterwards still has `completed = true`: no operation resets `completed`.
(`hnd`: identities are unique across the collection, an invariant of every
reachable store since ids are freshly generated uuids.) -/
theorem completed_monotonic_runState (op : Op) (state : List Task) (now : Int)
    (hnd : (state.map Task.id).Nodup) (taskId : String) (t t' : Task)
    (hfind : state.find? (fun x => x.id == taskId) = some t)
    (hc : t.completed = true)
    (hfind2 : (runState op state now).find? (fun x => x.id == taskId) = some t') :
    t'.completed = true := by
  cases op with
  | add data newId stepIds =>
    simp only [runState, addCriticalTask] at hfind2
    by_cases hv : data.title.trim = ""
    · rw [if_pos hv] at hfind2
      exact find?_unchanged_completed hfind hc hfind2
    · rw [if_neg hv] at hfind2
      simp only [List.find?_append, hfind, Option.or_some] at hfind2
      cases hfind2
      exact hc
  | getTasks opts =>
    exact find?_unchanged_completed hfind hc hfind2
  | topPriority c =>
    exact find?_unchanged_completed hfind hc hfind2
  | alerts =>
    exact find?_unchanged_completed hfind hc hfind2
  | stats =>
    exact find?_unchanged_completed hfind hc hfind2
  | snooze tid u reason =>
    simp only [runState, snoozeTask] at hfind2
    cases hf0 : state.find? (fun x => x.id == tid) with
    | none =>
      simp only [hf0] at hfind2
      exact find?_unchanged_completed hfind hc hfind2
    | some t0 =>
      simp only [hf0] at hfind2
      by_cases ht0 : t0.completed = true
      · simp only [if_pos ht0] at hfind2
        exact find?_unchanged_completed hfind hc hfind2
      · simp only [if_neg ht0] at hfind2
        cases u with
        | none =>
          simp only at hfind2
          exact find?_unchanged_completed hfind hc hfind2
        | some uv =>
          by_cases hu : uv ≤ now
          · simp only [if_pos hu] at hfind2
            exact find?_unchanged_completed hfind hc hfind2
          · simp only [if_neg hu] at hfind2
            refine updateFirstTask_find?_completed state tid _ ?_ ?_ taskId t t' hfind hc hfind2
            · exact fun x => rfl
            · exact fun x hcx => hcx
  | complete tid =>
    simp only [runState, completeTask] at hfind2
    cases hf0 : state.find? (fun x => x.id == tid) with
    | none =>
      simp only [hf0] at hfind2
      exact find?_unchanged_completed hfind hc hfind2
    | some t0 =>
      simp only [hf0] at hfind2
      by_cases ht0 : t0.completed = true
      · simp only [if_pos ht0] at hfind2
        exact find?_unchanged_completed hfind hc hfind2
      · simp only [if_neg ht0] at hfind2
        refine updateFirstTask_find?_completed state tid _ ?_ ?_ taskId t t' hfind hc hfind2
        · exact fun x => rfl
        · exact fun x _ => rfl
  | updStep tid sid flag =>
    simp only [runState, updateMicroStep] at hfind2
    cases hf0 : state.find? (fun x => x.id == tid) with
    | none =>
      simp only [hf0] at hfind2
      exact find?_unchanged_completed hfind hc hfind2
    | some t0 =>
      simp only [hf0] at hfind2
      cases hs0 : t0.microSteps.find? (fun s => s.id == sid) with
      | none =>
        simp only [hs0] at hfind2
        exact find?_unchanged_completed hfind hc hfind2
      | some s0 =>
        simp only [hs0] at hfind2
        refine updateFirstTask_find?_completed state tid _ ?_ ?_ taskId t t' hfind hc hfind2
        · exact fun x => rfl
        · exact fun x hcx => hcx
  | note tid nid text =>
    simp only [runState, addNote] at hfind2
    cases hf0 : state.find? (fun x => x.id == tid) with
    | none =>
      simp only [hf0] at hfind2
      exact find?_unchanged_completed hfind hc hfind2
    | some t0 =>
      simp only [hf0] at hfind2
      refine updateFirstTask_find?_completed state tid _ ?_ ?_ taskId t t' hfind hc hfind2
      · exact fun x => rfl
      · exact fun x hcx => hcx
  | clearDone =>
    simp only [runState, clearCompleted] at hfind2
    have ht'mem := List.mem_of_find?_eq_some hfind2
    have hmem := List.mem_filter.mp ht'mem
    have htmem := List.mem_of_find?_eq_some hfind
    have hid2 : t'.id = taskId := by simpa using List.find?_some hfind2
    have hid1 : t.id = taskId := by simpa using List.find?_some hfind
    have heq : t = t' :=
      List.inj_on_of_nodup_map hnd htmem hmem.1 (by rw [hid1, hid2])
    rw [← heq]
    exact hc

theorem completed_monotonic_runState_witness :
    ([cDoneTask].map Task.id).Nodup ∧
    [cDoneTask].find? (fun x => x.id == "a") = some cDoneTask ∧
    (runState (Op.note "b" "n1" "hello") [cDoneTask] cNow).find?
      (fun x => x.id == "a") = some cDoneTask ∧
    cDoneTask.completed = true :=
  ⟨by decide, by decide, by decide,
    completed_monotonic_runState (Op.note "b" "n1" "hello") [cDoneTask] cNow
      (by decide) "a" cDoneTask cDoneTask (by decide) (by decide) (by decide)⟩

/-! ## C8 — the snooze-history entry's field names -/

/-- C8 (key-name slip): a successful snooze on the array-based store appends
one history entry, sets `snoozedUntil` and increments `snoozeCount` — but
the entry's time-of-snooze key is spelled `snoozedat`, so a lookup of the
documented `snoozedAt` key finds nothing.  (The Map-based rewrite of the
module spells it `snoozedAt`.) -/
theorem snoozeTask_history_key_snoozedat :
    (snoozeTask [baseTask] "x" (some 7200000) "later" 3600000).2.map
        (fun t => (t.snoozeCount, t.snoozedUntil,
          t.snoozeHistory.map (fun e => (e.lookup "snoozedAt", e.lookup "snoozedat")))) =
      [(1, some 7200000, [(none, some (JVal.vTime 3600000))])] := by
  decide

end NeverForget
